import Mathlib

/-!
szark-core: a shallow embedding of `szark_core.hpp`.

The development follows the header top to bottom.

* `uint` is `unsigned int` (32 bits): a `uint` value is a natural number below `2^32`,
  and every `uint` operation of the source is written with an explicit `% 2^32`.
* `int` is 32 bits, signed.  Signed overflow is undefined behaviour in C++.
* Undefined behaviour (an access outside an allocated buffer, signed overflow, a
  float-to-integer conversion out of range) is the result `none`.
-/

namespace Szark

/-! ## Machine integers -/

/-- Number of values of `unsigned int` (`#define uint unsigned int`). -/
def UINT_SIZE : Nat := 2 ^ 32

/-- Largest value of `int`. -/
def INT_MAX : Nat := 2 ^ 31 - 1

/-! ## `struct Color` -/

/-- Four `ubyte` channels. -/
structure Color where
  r : Nat
  g : Nat
  b : Nat
  a : Nat
deriving DecidableEq, Repr

/-- The default constructor `Color() : r(0), g(0), b(0), a(0)`. -/
def Color.default : Color := Color.mk 0 0 0 0

/-! ## `struct Texture` -/

/-- The fields of `Texture`: the owned buffer `pixels` and the `uint` fields `width`, `height`.
The size of `pixels` is the number of cells that were allocated. -/
structure Texture where
  pixels : Array Color
  width : Nat
  height : Nat

/-- The constructor `Texture(uint t_width, uint t_height)`: the buffer is
`std::make_unique<Color[]>(width * height)`, the product being a `uint` product, and every
cell is value-initialised by `Color()`. -/
def Texture.new (t_width t_height : Nat) : Texture :=
  { pixels := Array.mkArray ((t_width * t_height) % UINT_SIZE) Color.default
    width := t_width
    height := t_height }

/-- The `uint` expression `y * width + x` used to address `pixels`. -/
def Texture.index (t : Texture) (x y : Nat) : Nat :=
  (y * t.width + x) % UINT_SIZE

/-- The method `Color getPixel(uint x, uint y)`.  `none` is a read outside the buffer. -/
def Texture.getPixel (t : Texture) (x y : Nat) : Option Color :=
  if 0 ≤ x ∧ x < t.width ∧ 0 ≤ y ∧ y < t.height then
    t.pixels[t.index x y]?
  else
    some (Color.mk 0 0 0 0)

/-- The method `void setPixel(uint x, uint y, Color color)`.  `none` is a write outside the
buffer. -/
def Texture.setPixel (t : Texture) (x y : Nat) (color : Color) : Option Texture :=
  if 0 ≤ x ∧ x < t.width ∧ 0 ≤ y ∧ y < t.height then
    if h : t.index x y < t.pixels.size then
      some { t with pixels := t.pixels.set ⟨t.index x y, h⟩ color }
    else
      none
  else
    some t

/-- The loop `for (int i = 0; i < width * height; i++) pixels[i] = color;` of `fill`, from the
state in which the counter is `i` and `k` iterations are left (`k` is `width * height - i`, the
bound being the `uint` product, which the body does not change).  One iteration writes
`pixels[i]` and then increments the `int` counter; `none` is a write outside the buffer or the
overflow of the counter. -/
def Texture.fillLoop (color : Color) : Nat → Nat → Texture → Option Texture
  | 0, _, t => some t
  | k + 1, i, t =>
    if h : i < t.pixels.size then
      if i + 1 ≤ INT_MAX then
        Texture.fillLoop color k (i + 1) { t with pixels := t.pixels.set ⟨i, h⟩ color }
      else
        none
    else
      none

/-- The method `void fill(Color color)`. -/
def Texture.fill (t : Texture) (color : Color) : Option Texture :=
  Texture.fillLoop color ((t.width * t.height) % UINT_SIZE) 0 t

/-- The state of a `Texture` object that the constructor establishes and that `setPixel` and
`fill` keep: `width` and `height` are `uint` values and `pixels` has `width * height` cells,
the product being the `uint` product. -/
def Texture.WF (t : Texture) : Prop :=
  t.width < UINT_SIZE ∧ t.height < UINT_SIZE ∧
    t.pixels.size = (t.width * t.height) % UINT_SIZE

instance (t : Texture) : Decidable t.WF := by
  unfold Texture.WF; infer_instance

/-! ## `float` arithmetic

`float` is IEEE 754 binary32 with the default rounding (to nearest, ties to even).  Every
finite non-negative `float` is a multiple of `2^-149`, the smallest subnormal; such a value is
represented by the natural number of these units it contains.  Only non-negative values occur
(the operands are converted `uint` values).  A result that is not finite (an infinity or a
NaN) is `none`: the only use of a `float` in the source is `(uint)ceilf(...)`, whose behaviour
is undefined for such a value. -/

/-- Number of units `2^-149` in `1.0f`. -/
def F32_UNIT : Nat := 2 ^ 149

/-- The exponent of the unit in the last place of a value of `n` units (rounded down),
relative to `2^-149`: the least `s` with `n / 2^s < 2^24`, found by halving.  The first
argument bounds the number of halvings and is passed `n` itself. -/
def f32Shift : Nat → Nat → Nat
  | 0, _ => 0
  | fuel + 1, n => if n < 2 ^ 24 then 0 else f32Shift fuel (n / 2) + 1

/-- The quotient `x / d` rounded to the nearest integer, ties to even. -/
def roundQuot (x d : Nat) : Nat :=
  if d < 2 * (x % d) ∨ (2 * (x % d) = d ∧ x / d % 2 = 1) then x / d + 1 else x / d

/-- The `float` nearest to the rational `a / b`, ties to even: with `2^s` units the unit in
the last place, the quotient of `a / b` by it is rounded to the nearest integer (a 24-bit
significand, or `2^24`, which is the next binade).  A result of `2^128` or more has
overflowed to infinity; a zero divisor gives an infinity or a NaN. -/
def f32OfRat (a b : Nat) : Option Nat :=
  if b = 0 then none
  else
    let s := f32Shift (a * F32_UNIT / b) (a * F32_UNIT / b)
    let z := roundQuot (a * F32_UNIT) (b * 2 ^ s) * 2 ^ s
    if z < 2 ^ 128 * F32_UNIT then some z else none

/-- The conversion `(float)u` of a `uint`. -/
def f32OfUint (u : Nat) : Option Nat := f32OfRat u 1

/-- The `float` division `x / y`: the exact quotient, rounded. -/
def f32Div (x y : Nat) : Option Nat := f32OfRat x y

/-- The function `ceilf`; the ceiling of a finite `float` is a `float`. -/
def ceilf (x : Nat) : Nat := (x + F32_UNIT - 1) / F32_UNIT * F32_UNIT

/-- The conversion `(uint)x` of a `float`: truncation, undefined when the truncated value is
not a `uint`. -/
def f32ToUint (x : Nat) : Option Nat :=
  if x / F32_UNIT < UINT_SIZE then some (x / F32_UNIT) else none

/-! ## The OpenGL context

The part of the fixed-function OpenGL state that the header drives.  Coordinates are the
integer literals of the source. -/

/-- A vertex issued by `glVertex2f`, with the texture coordinate that was current when it was
issued. -/
structure Vertex where
  position : Int × Int
  texCoord : Int × Int
deriving DecidableEq, Repr

/-- The parameter names passed to `glTexParameteri`. -/
inductive TexParam where
  | GL_TEXTURE_MIN_FILTER
  | GL_TEXTURE_MAG_FILTER
  | GL_TEXTURE_WRAP_S
  | GL_TEXTURE_WRAP_T
deriving DecidableEq, Repr

/-- The parameter values passed to `glTexParameteri`. -/
inductive TexValue where
  | GL_NEAREST
  | GL_CLAMP
deriving DecidableEq, Repr

/-- An image specified by `glTexImage2D` for the texture `name`. -/
structure TexImage where
  name : Nat
  width : Nat
  height : Nat
  data : Array Color

structure GLState where
  /-- `GL_TEXTURE_2D` is enabled. -/
  texture2D : Bool
  viewport : Nat × Nat × Nat × Nat
  clearColor : Int × Int × Int × Int
  /-- Number of `glClear` calls. -/
  clears : Nat
  color : Int × Int × Int
  /-- Number of texture names handed out by `glGenTextures`. -/
  names : Nat
  boundTexture : Nat
  images : List TexImage
  params : List (Nat × TexParam × TexValue)
  /-- The current texture coordinate. -/
  texCoord : Int × Int
  /-- The vertices issued since `glBegin(GL_QUADS)`. -/
  vertices : List Vertex
  /-- The quads assembled by `glEnd`, oldest first. -/
  quads : List (List Vertex)

/-- The state of a fresh context: the current texture coordinate is `(0, 0)`. -/
def GLState.init : GLState :=
  { texture2D := false, viewport := (0, 0, 0, 0), clearColor := (0, 0, 0, 0), clears := 0,
    color := (1, 1, 1), names := 0, boundTexture := 0, images := [], params := [],
    texCoord := (0, 0), vertices := [], quads := [] }

def glEnable_TEXTURE_2D (gl : GLState) : GLState := { gl with texture2D := true }

def glViewport (x y width height : Nat) (gl : GLState) : GLState :=
  { gl with viewport := (x, y, width, height) }

def glClearColor (r g b a : Int) (gl : GLState) : GLState :=
  { gl with clearColor := (r, g, b, a) }

def glClear (gl : GLState) : GLState := { gl with clears := gl.clears + 1 }

def glColor3f (r g b : Int) (gl : GLState) : GLState := { gl with color := (r, g, b) }

/-- The call `glGenTextures(1, &id)`: a name that is not in use. -/
def glGenTextures (gl : GLState) : Nat × GLState :=
  (gl.names + 1, { gl with names := gl.names + 1 })

def glBindTexture (id : Nat) (gl : GLState) : GLState := { gl with boundTexture := id }

/-- The call `glTexImage2D`: the image of the bound texture is a copy of the data. -/
def glTexImage2D (width height : Nat) (data : Array Color) (gl : GLState) : GLState :=
  { gl with images := gl.images ++ [⟨gl.boundTexture, width, height, data⟩] }

def glTexParameteri (pname : TexParam) (value : TexValue) (gl : GLState) : GLState :=
  { gl with params := gl.params ++ [(gl.boundTexture, pname, value)] }

/-- The call `glBegin(GL_QUADS)`. -/
def glBegin (gl : GLState) : GLState := { gl with vertices := [] }

/-- The call `glVertex2f(x, y)`: the vertex takes the current texture coordinate. -/
def glVertex2f (x y : Int) (gl : GLState) : GLState :=
  { gl with vertices := gl.vertices ++ [⟨(x, y), gl.texCoord⟩] }

/-- The call `glTexCoord2f(s, t)` sets the current texture coordinate. -/
def glTexCoord2f (s t : Int) (gl : GLState) : GLState := { gl with texCoord := (s, t) }

/-- The quads that `GL_QUADS` assembles from a vertex sequence: each group of four. -/
def quadsOf : List Vertex → List (List Vertex)
  | a :: b :: c :: d :: rest => [a, b, c, d] :: quadsOf rest
  | _ => []

def glEnd (gl : GLState) : GLState :=
  { gl with quads := gl.quads ++ quadsOf gl.vertices, vertices := [] }

/-! ## `struct WindowOptions`, `struct Sprite`, the global variables -/

/-- The three callbacks of `WindowOptions`. -/
inductive Callback where
  | onOpened
  | onLoop
  | onClosed
deriving DecidableEq, Repr

/-- The fields of `WindowOptions`.  A callback field is `true` when the `std::function` is not
empty (`!= nullptr`); the bodies are supplied by the caller and are not modelled: a call is
recorded, and is taken not to touch the state below. -/
structure WindowOptions where
  title : String
  width : Nat
  height : Nat
  pixelSize : Nat
  onOpened : Bool
  onLoop : Bool
  onClosed : Bool

structure Sprite where
  id : Nat
  width : Nat
  height : Nat

/-- The constructor `Sprite()`. -/
def Sprite.empty : Sprite := { id := 0, width := 0, height := 0 }

/-- The constructor `Sprite(Texture& texture)`. -/
def Sprite.new (texture : Texture) (gl : GLState) : Sprite × GLState :=
  let (id, gl1) := glGenTextures gl
  let gl2 := glBindTexture id gl1
  let gl3 := glTexImage2D texture.width texture.height texture.pixels gl2
  let gl4 := glTexParameteri TexParam.GL_TEXTURE_MIN_FILTER TexValue.GL_NEAREST gl3
  let gl5 := glTexParameteri TexParam.GL_TEXTURE_MAG_FILTER TexValue.GL_NEAREST gl4
  let gl6 := glTexParameteri TexParam.GL_TEXTURE_WRAP_S TexValue.GL_CLAMP gl5
  let gl7 := glTexParameteri TexParam.GL_TEXTURE_WRAP_T TexValue.GL_CLAMP gl6
  ({ id := id, width := texture.width, height := texture.height }, gl7)

/-- The global variables `options`, `drawTarget`, `dts`, and the state outside the header that
its functions act on: the OpenGL context, the sequence of values that `rand()` returns with
the number of calls made so far, the number of buffer swaps, the pixel format handed to
`SetPixelFormat`, whether the rendering context was destroyed, the exit code given to
`PostQuitMessage`, and the record of the callback invocations, oldest first. -/
structure World where
  options : WindowOptions
  drawTarget : Texture
  dts : Sprite
  gl : GLState
  rand : Nat → Nat
  randCalls : Nat
  swaps : Nat
  pixelFormat : Nat
  contextDestroyed : Bool
  quit : Option Nat
  trace : List Callback

/-- The state at program start: `static Texture drawTarget(0, 0); static Sprite dts;`. -/
def World.init (rand : Nat → Nat) : World :=
  { options := { title := "", width := 0, height := 0, pixelSize := 0, onOpened := false,
                 onLoop := false, onClosed := false }
    drawTarget := Texture.new 0 0
    dts := Sprite.empty
    gl := GLState.init
    rand := rand
    randCalls := 0
    swaps := 0
    pixelFormat := 0
    contextDestroyed := false
    quit := none
    trace := [] }

/-- The statement `if (options.f != nullptr) options.f();` for the callback `f`. -/
def invoke (isSet : Bool) (f : Callback) (w : World) : World :=
  if isSet then { w with trace := w.trace ++ [f] } else w

/-! ## Rendering -/

/-- The expression `(uint)ceilf((float)extent / options.pixelSize)` of `initDrawTarget`. -/
def scaled (extent pixelSize : Nat) : Option Nat := do
  let a ← f32OfUint extent
  let b ← f32OfUint pixelSize
  let q ← f32Div a b
  f32ToUint (ceilf q)

/-- The loop of `initDrawTarget`, from the state in which the `int` counter is `i` and `k`
iterations are left.  One iteration stores
`Color((ubyte)(rand() % 255), (ubyte)(rand() % 255), (ubyte)(rand() % 255), 255)` in
`drawTarget.pixels[i]` (the three calls are taken left to right) and increments the counter;
`none` is a write outside the buffer or the overflow of the counter. -/
def initLoop : Nat → Nat → World → Option World
  | 0, _, w => some w
  | k + 1, i, w =>
    if h : i < w.drawTarget.pixels.size then
      if i + 1 ≤ INT_MAX then
        initLoop k (i + 1)
          { w with
            drawTarget :=
              { w.drawTarget with
                pixels := w.drawTarget.pixels.set ⟨i, h⟩
                  (Color.mk (w.rand w.randCalls % 255) (w.rand (w.randCalls + 1) % 255)
                    (w.rand (w.randCalls + 2) % 255) 255) }
            randCalls := w.randCalls + 3 }
      else
        none
    else
      none

/-- The function `void initDrawTarget()`. -/
def initDrawTarget (w : World) : Option World := do
  let sWidth ← scaled w.options.width w.options.pixelSize
  let sHeight ← scaled w.options.height w.options.pixelSize
  let w1 ← initLoop ((sWidth * sHeight) % UINT_SIZE) 0
    { w with drawTarget := Texture.new sWidth sHeight }
  let (sprite, gl) := Sprite.new w1.drawTarget w1.gl
  some { w1 with dts := sprite, gl := gl }

/-- The function `void mainRender()`. -/
def mainRender (w : World) : World :=
  let gl := w.gl
  let gl := glViewport 0 0 w.options.width w.options.height gl
  let gl := glClearColor 1 0 0 1 gl
  let gl := glClear gl
  let gl := glColor3f 1 1 1 gl
  let gl := glBindTexture w.dts.id gl
  let gl := glBegin gl
  let gl := glTexCoord2f 0 0 (glVertex2f (-1) (-1) gl)
  let gl := glTexCoord2f 1 0 (glVertex2f 1 (-1) gl)
  let gl := glTexCoord2f 1 1 (glVertex2f 1 1 gl)
  let gl := glTexCoord2f 0 1 (glVertex2f (-1) 1 gl)
  let gl := glEnd gl
  invoke w.options.onLoop Callback.onLoop { w with gl := gl }

/-! ## The Win32 window (`__MINGW32__`) -/

namespace Win32

/-- The messages that `WndProc` distinguishes. -/
inductive Msg where
  | WM_CREATE
  | WM_PAINT
  | WM_DESTROY
  | other (uMsg : Nat)
deriving DecidableEq, Repr

/-- What the operating system answers during one call of `createWindow`: the pixel format
that `ChoosePixelFormat` returns (`0` when no format matches), the client area that
`GetClientRect` reports, the messages sent to the window procedure while `CreateWindowEx`
runs, whether `CreateWindowEx` returns a window, the messages that reach the window procedure
afterwards (from `ShowWindow`, `UpdateWindow` and `DispatchMessage`) until `GetMessage`
retrieves `WM_QUIT`, and the `wParam` of a `WM_QUIT` that does not come from
`PostQuitMessage`. -/
structure Env where
  pixelFormat : Nat
  clientWidth : Nat
  clientHeight : Nat
  createMsgs : List Msg
  hWnd : Bool
  loopMsgs : List Msg
  quitParam : Nat

/-- The window procedure `WndProc`.  The results of `ChoosePixelFormat`, `SetPixelFormat`,
`wglCreateContext` and `wglMakeCurrent` are not inspected by the source. -/
def WndProc (env : Env) (w : World) : Msg → Option World
  | Msg.WM_CREATE => do
    let w1 := { w with pixelFormat := env.pixelFormat }
    let w2 := { w1 with
      options := { w1.options with width := env.clientWidth, height := env.clientHeight } }
    let w3 := { w2 with gl := glEnable_TEXTURE_2D w2.gl }
    let w4 ← initDrawTarget w3
    some (invoke w4.options.onOpened Callback.onOpened w4)
  | Msg.WM_PAINT =>
    let w1 := { w with swaps := w.swaps + 1 }
    let w2 := mainRender w1
    some (invoke w2.options.onLoop Callback.onLoop w2)
  | Msg.WM_DESTROY =>
    let w1 := { w with contextDestroyed := true, quit := some 0 }
    some (invoke w1.options.onClosed Callback.onClosed w1)
  | Msg.other _ => some w

/-- The window procedure applied to a sequence of messages, in order. -/
def dispatch (env : Env) : List Msg → World → Option World
  | [], w => some w
  | m :: ms, w => (WndProc env w m).bind (dispatch env ms)

/-- The function `int createWindow(WindowOptions& t_options)`; the result is the final state
and the returned status. -/
def createWindow (env : Env) (t_options : WindowOptions) (w : World) :
    Option (World × Nat) := do
  let w1 := { w with options := t_options }
  let w2 ← dispatch env env.createMsgs w1
  if !env.hWnd then
    some (w2, 1)
  else
    let w3 ← dispatch env env.loopMsgs w2
    some (w3, w3.quit.getD env.quitParam)

end Win32

/-! ## The X11 window (`__linux__`) -/

namespace X11

/-- The values of `event.type` that `mainLoop` distinguishes. -/
inductive EventType where
  | CreateNotify
  | ClientMessage
  | Expose
  | other (type : Nat)
deriving DecidableEq, Repr

/-- What the X server answers during one call of `createWindow`: whether `XOpenDisplay`
returns a display, whether `glXChooseVisual` returns a visual, the content of the
uninitialised `XEvent event`, and, for each iteration of the loop in turn, the event that
`XNextEvent` delivers when `XPending` is non-zero (`none` when nothing is pending). -/
structure Env where
  display : Bool
  visual : Bool
  event : EventType
  pending : List (Option EventType)

/-- The function `void mainLoop(Display* display, XID& win)`, over the iterations that the
list describes, from the state in which `event` holds `event`.  The result is the final state
and `isRunning`: `false` when the loop has ended, `true` when the iterations described are
used up with the loop still running. -/
def mainLoop : List (Option EventType) → EventType → World → Option (World × Bool)
  | [], _, w => some (w, true)
  | next :: rest, event, w =>
    let event := next.getD event
    match event with
    | EventType.CreateNotify => do
      let w1 := { w with gl := glEnable_TEXTURE_2D w.gl }
      let w2 ← initDrawTarget w1
      mainLoop rest event (invoke w2.options.onOpened Callback.onOpened w2)
    | EventType.ClientMessage =>
      let w1 := { w with contextDestroyed := true }
      some (invoke w1.options.onClosed Callback.onClosed w1, false)
    | EventType.Expose =>
      mainLoop rest event (mainRender { w with swaps := w.swaps + 1 })
    | EventType.other _ => mainLoop rest event w

/-- The function `int createWindow(WindowOptions& t_options)`; the result is the final state
and the returned status, `none` when the function has not returned within the iterations
described. -/
def createWindow (env : Env) (t_options : WindowOptions) (w : World) :
    Option (World × Option Nat) := do
  let w1 := { w with options := t_options }
  if !env.display then
    some (w1, some 1)
  else if !env.visual then
    some (w1, some 1)
  else
    let (w2, isRunning) ← mainLoop env.pending env.event w1
    some (w2, if isRunning then none else some 0)

end X11

/-- The shape of a callback record that the lifecycle prescribes: `onOpened`, then any number
of `onLoop`, then one `onClosed`. -/
def Lifecycle (trace : List Callback) : Prop :=
  ∃ n, trace = Callback.onOpened :: (List.replicate n Callback.onLoop ++ [Callback.onClosed])

/-- The state in which `createWindow` has stored options of the given size and pixel size,
with the three callbacks set, and nothing else has happened; `rand()` returns `0`. -/
def World.sample (width height pixelSize : Nat) : World :=
  { World.init (fun _ => 0) with
    options := { title := "", width := width, height := height, pixelSize := pixelSize,
                 onOpened := true, onLoop := true, onClosed := true } }

/-- Integer ceiling division, the `ceil(W / pixelSize)` of the specification. -/
def ceilDiv (a b : Nat) : Nat := (a + b - 1) / b

/-! # Theorems -/

set_option maxRecDepth 100000

/-! ## Texture: general facts -/

theorem Texture.new_WF (w h : Nat) (hw : w < UINT_SIZE) (hh : h < UINT_SIZE) :
    (Texture.new w h).WF := by
  simp [Texture.WF, Texture.new, hw, hh]

/-- Inside the bounds, without wrap-around of `width * height`, the linear index is below the
number of cells. -/
theorem index_lt_cells {w h x y : Nat} (hx : x < w) (hy : y < h) : y * w + x < w * h := by
  calc y * w + x < y * w + w := by omega
    _ = (y + 1) * w := by ring
    _ ≤ h * w := Nat.mul_le_mul_right w hy
    _ = w * h := Nat.mul_comm h w

theorem Texture.index_eq (t : Texture) {x y : Nat} (hov : t.width * t.height < UINT_SIZE)
    (hx : x < t.width) (hy : y < t.height) : t.index x y = y * t.width + x := by
  unfold Texture.index
  exact Nat.mod_eq_of_lt (lt_trans (index_lt_cells hx hy) hov)

theorem Texture.index_lt_size (t : Texture) (hwf : t.WF) {x y : Nat}
    (hov : t.width * t.height < UINT_SIZE) (hx : x < t.width) (hy : y < t.height) :
    t.index x y < t.pixels.size := by
  rw [t.index_eq hov hx hy, hwf.2.2, Nat.mod_eq_of_lt hov]
  exact index_lt_cells hx hy

/-- The linear index is injective on the coordinates inside the bounds. -/
theorem index_inj {w x y x' y' : Nat} (hx : x < w) (hx' : x' < w)
    (h : y * w + x = y' * w + x') : x = x' ∧ y = y' := by
  have hw : 0 < w := by omega
  have h1 : (y * w + x) / w = y := by
    rw [Nat.add_comm, Nat.add_mul_div_right _ _ hw, Nat.div_eq_of_lt hx, Nat.zero_add]
  have h2 : (y' * w + x') / w = y' := by
    rw [Nat.add_comm, Nat.add_mul_div_right _ _ hw, Nat.div_eq_of_lt hx', Nat.zero_add]
  have hy : y = y' := by rw [← h1, ← h2, h]
  subst hy
  exact ⟨by omega, rfl⟩

theorem Texture.getPixel_inside (t : Texture) {x y : Nat} (hx : x < t.width)
    (hy : y < t.height) : t.getPixel x y = t.pixels[t.index x y]? := by
  simp [Texture.getPixel, hx, hy]

theorem Texture.getPixel_outside (t : Texture) {x y : Nat}
    (h : t.width ≤ x ∨ t.height ≤ y) : t.getPixel x y = some (Color.mk 0 0 0 0) := by
  unfold Texture.getPixel
  rw [if_neg]
  rintro ⟨-, hx, -, hy⟩
  omega

theorem Texture.setPixel_inside (t : Texture) {x y : Nat} (color : Color) (hx : x < t.width)
    (hy : y < t.height) (h : t.index x y < t.pixels.size) :
    t.setPixel x y color = some { t with pixels := t.pixels.set ⟨t.index x y, h⟩ color } := by
  simp [Texture.setPixel, hx, hy, h]

theorem Texture.setPixel_outside (t : Texture) {x y : Nat} (color : Color)
    (h : t.width ≤ x ∨ t.height ≤ y) : t.setPixel x y color = some t := by
  unfold Texture.setPixel
  rw [if_neg]
  rintro ⟨-, hx, -, hy⟩
  omega

/-- What the loop of `fill` computes when the counter stays an `int` and the remaining
indices are inside the buffer: the cells `i, ..., i + k - 1` hold `color`, the others and the
dimensions are unchanged. -/
theorem Texture.fillLoop_spec (color : Color) (k : Nat) :
    ∀ (i : Nat) (t : Texture), i + k = t.pixels.size → i + k ≤ INT_MAX →
      ∃ t', Texture.fillLoop color k i t = some t' ∧ t'.width = t.width ∧
        t'.height = t.height ∧ t'.pixels.size = t.pixels.size ∧
        ∀ j, t'.pixels[j]? = if i ≤ j ∧ j < i + k then some color else t.pixels[j]? := by
  induction k with
  | zero =>
    intro i t _ _
    refine ⟨t, rfl, rfl, rfl, rfl, fun j => ?_⟩
    rw [if_neg]; omega
  | succ k ih =>
    intro i t hsz hmax
    have hi : i < t.pixels.size := by omega
    have hi1 : i + 1 ≤ INT_MAX := by omega
    obtain ⟨t', h1, h2, h3, h4, h5⟩ :=
      ih (i + 1) { t with pixels := t.pixels.set ⟨i, hi⟩ color }
        (by simp only [Array.size_set]; omega) (by omega)
    refine ⟨t', ?_, h2, h3, ?_, fun j => ?_⟩
    · simp only [Texture.fillLoop, hi, hi1, dite_true, if_true]
      exact h1
    · rw [h4]; simp only [Array.size_set]
    · rw [h5 j, Array.get?_set]
      simp only
      by_cases hij : i = j
      · subst hij
        simp
      · by_cases hlo : i + 1 ≤ j ∧ j < i + 1 + k
        · rw [if_pos hlo, if_pos (by omega)]
        · rw [if_neg hlo, if_neg hij, if_neg (by omega)]

/-- C1 (as amended): when `width * height` does not wrap around, `setPixel(x, y, c)` at a
coordinate inside the bounds succeeds and the following `getPixel(x, y)` returns `c`. -/
theorem setPixel_getPixel_same (t : Texture) (x y : Nat) (c : Color) (hwf : t.WF)
    (hov : t.width * t.height < UINT_SIZE) (hx : x < t.width) (hy : y < t.height) :
    ∃ t', t.setPixel x y c = some t' ∧ t'.getPixel x y = some c := by
  have hi := t.index_lt_size hwf hov hx hy
  refine ⟨_, t.setPixel_inside c hx hy hi, ?_⟩
  rw [Texture.getPixel_inside _ (by exact hx) (by exact hy)]
  simp only [Texture.index]
  exact Array.get?_set_eq _ _ _

theorem setPixel_getPixel_same_witness :
    (Texture.new 3 2).WF ∧ (3 : Nat) * 2 < UINT_SIZE ∧
      ∃ t', (Texture.new 3 2).setPixel 2 1 (Color.mk 1 2 3 4) = some t' ∧
        t'.getPixel 2 1 = some (Color.mk 1 2 3 4) :=
  ⟨by decide, by decide,
    setPixel_getPixel_same (Texture.new 3 2) 2 1 (Color.mk 1 2 3 4) (by decide) (by decide)
      (by decide) (by decide)⟩

/-- C1 (as stated) fails: `Texture(65536, 65536)` has `65536 * 65536 % 2^32 = 0` cells, the
coordinate `(0, 0)` is inside its bounds, and `setPixel(0, 0, c)` writes outside the buffer. -/
theorem setPixel_getPixel_wraparound :
    (Texture.new 65536 65536).WF ∧ 0 < (Texture.new 65536 65536).width ∧
      0 < (Texture.new 65536 65536).height ∧ (Texture.new 65536 65536).pixels.size = 0 ∧
      ((Texture.new 65536 65536).setPixel 0 0 (Color.mk 255 255 255 255)).bind
        (fun t' => t'.getPixel 0 0) = none := by
  refine ⟨by decide, by decide, by decide, by decide, ?_⟩
  decide

/-- C2: outside the bounds (`x >= width` or `y >= height`), `getPixel(x, y)` returns
`Color{0,0,0,0}`, and `setPixel(x, y, c)` returns normally with a texture on which `getPixel`
of every coordinate inside the bounds is what it was before. -/
theorem out_of_bounds_access (t : Texture) (x y : Nat) (c : Color)
    (hout : x ≥ t.width ∨ y ≥ t.height) :
    t.getPixel x y = some (Color.mk 0 0 0 0) ∧
      ∃ t', t.setPixel x y c = some t' ∧ t'.width = t.width ∧ t'.height = t.height ∧
        ∀ x' y', x' < t.width → y' < t.height → t'.getPixel x' y' = t.getPixel x' y' :=
  ⟨t.getPixel_outside hout,
    t, t.setPixel_outside c hout, rfl, rfl, fun _ _ _ _ => rfl⟩

theorem out_of_bounds_access_witness :
    ((5 : Nat) ≥ (Texture.new 3 2).width ∨ (0 : Nat) ≥ (Texture.new 3 2).height) ∧
      ((Texture.new 3 2).getPixel 5 0 = some (Color.mk 0 0 0 0) ∧
        ∃ t', (Texture.new 3 2).setPixel 5 0 (Color.mk 9 9 9 9) = some t' ∧
          t'.width = (Texture.new 3 2).width ∧ t'.height = (Texture.new 3 2).height ∧
          ∀ x' y', x' < (Texture.new 3 2).width → y' < (Texture.new 3 2).height →
            t'.getPixel x' y' = (Texture.new 3 2).getPixel x' y') :=
  ⟨by decide, out_of_bounds_access (Texture.new 3 2) 5 0 (Color.mk 9 9 9 9) (by decide)⟩

/-- C3 (as amended): when `width * height` is below `2^31` (no wrap-around of the `uint`
product, no overflow of the `int` counter), `fill(c)` returns normally, keeps the dimensions,
and afterwards `getPixel(x, y)` returns `c` at every coordinate inside the bounds. -/
theorem fill_getPixel (t : Texture) (c : Color) (hwf : t.WF)
    (hcells : t.width * t.height < 2 ^ 31) :
    ∃ t', t.fill c = some t' ∧ t'.width = t.width ∧ t'.height = t.height ∧
      ∀ x y, x < t.width → y < t.height → t'.getPixel x y = some c := by
  have hov : t.width * t.height < UINT_SIZE := lt_trans hcells (by decide)
  have hsz : t.pixels.size = t.width * t.height := by
    rw [hwf.2.2, Nat.mod_eq_of_lt hov]
  obtain ⟨t', h1, h2, h3, _, h5⟩ :=
    Texture.fillLoop_spec c ((t.width * t.height) % UINT_SIZE) 0 t
      (by rw [Nat.mod_eq_of_lt hov, hsz]; omega)
      (by rw [Nat.mod_eq_of_lt hov]; unfold INT_MAX; omega)
  refine ⟨t', h1, h2, h3, fun x y hx hy => ?_⟩
  rw [Texture.getPixel_inside _ (by rw [h2]; exact hx) (by rw [h3]; exact hy), h5]
  have hidx : t'.index x y < t.width * t.height := by
    unfold Texture.index
    rw [h2, Nat.mod_eq_of_lt (lt_trans (index_lt_cells hx hy) hov)]
    exact index_lt_cells hx hy
  rw [if_pos]
  rw [Nat.mod_eq_of_lt hov]
  omega

theorem fill_getPixel_witness :
    (Texture.new 3 2).WF ∧ (Texture.new 3 2).width * (Texture.new 3 2).height < 2 ^ 31 ∧
      ∃ t', (Texture.new 3 2).fill (Color.mk 1 2 3 4) = some t' ∧
        t'.width = (Texture.new 3 2).width ∧ t'.height = (Texture.new 3 2).height ∧
        ∀ x y, x < (Texture.new 3 2).width → y < (Texture.new 3 2).height →
          t'.getPixel x y = some (Color.mk 1 2 3 4) :=
  ⟨by decide, by decide,
    fill_getPixel (Texture.new 3 2) (Color.mk 1 2 3 4) (by decide) (by decide)⟩

/-- C3 (as stated) fails: `Texture(65536, 65536)` has no cell, so the loop of `fill` writes
nothing, and `getPixel(0, 0)`, which is inside the bounds, reads outside the buffer. -/
theorem fill_getPixel_wraparound :
    (Texture.new 65536 65536).WF ∧ 0 < (Texture.new 65536 65536).width ∧
      0 < (Texture.new 65536 65536).height ∧
      ((Texture.new 65536 65536).fill (Color.mk 255 255 255 255)).bind
        (fun t' => t'.getPixel 0 0) = none := by
  refine ⟨by decide, by decide, by decide, ?_⟩
  decide

/-- The `int` counter of `fill` overflows when the buffer has `2^31` cells or more: the loop
does not return normally. -/
theorem Texture.fillLoop_counter_overflow (color : Color) (k : Nat) :
    ∀ (i : Nat) (t : Texture), 0 < k → INT_MAX < i + k →
      Texture.fillLoop color k i t = none := by
  induction k with
  | zero => intro i t h; omega
  | succ k ih =>
    intro i t _ h
    unfold Texture.fillLoop
    by_cases hi : i < t.pixels.size
    · by_cases hi1 : i + 1 ≤ INT_MAX
      · simp only [hi, hi1, dite_true, if_true]
        exact ih (i + 1) _ (by omega) (by omega)
      · simp only [hi, hi1, dite_true, if_false]
    · simp only [hi, dite_false]

/-- On `Texture(65536, 32768)`, whose `2^31` cells fit the `uint` product, `fill` overflows its
`int` counter after the last write. -/
theorem fill_counter_overflow (c : Color) : (Texture.new 65536 32768).fill c = none :=
  Texture.fillLoop_counter_overflow c _ 0 _ (by decide) (by decide)

/-- C9: when `width * height` does not wrap around, `setPixel(x, y, c)` inside the bounds
leaves `getPixel(x', y')` unchanged at every other coordinate inside the bounds, and leaves
`width` and `height` unchanged. -/
theorem setPixel_frame (t : Texture) (x y x' y' : Nat) (c : Color) (hwf : t.WF)
    (hov : t.width * t.height < 2 ^ 32) (hx : x < t.width) (hy : y < t.height)
    (hx' : x' < t.width) (hy' : y' < t.height) (hne : (x', y') ≠ (x, y)) :
    ∃ t', t.setPixel x y c = some t' ∧ t'.getPixel x' y' = t.getPixel x' y' ∧
      t'.width = t.width ∧ t'.height = t.height := by
  have hi := t.index_lt_size hwf hov hx hy
  refine ⟨_, t.setPixel_inside c hx hy hi, ?_, rfl, rfl⟩
  rw [Texture.getPixel_inside _ (by exact hx') (by exact hy'), t.getPixel_inside hx' hy']
  simp only [Texture.index]
  apply Array.get?_set_ne
  intro heq
  have h1 := t.index_eq hov hx hy
  have h2 := t.index_eq hov hx' hy'
  unfold Texture.index at h1 h2
  simp only at heq
  rw [h1, h2] at heq
  obtain ⟨e1, e2⟩ := index_inj hx hx' heq
  exact hne (by rw [e1, e2])

theorem setPixel_frame_witness :
    (Texture.new 3 2).WF ∧ ((0 : Nat), (1 : Nat)) ≠ (2, 1) ∧
      ∃ t', (Texture.new 3 2).setPixel 2 1 (Color.mk 1 2 3 4) = some t' ∧
        t'.getPixel 0 1 = (Texture.new 3 2).getPixel 0 1 ∧
        t'.width = (Texture.new 3 2).width ∧ t'.height = (Texture.new 3 2).height :=
  ⟨by decide, by decide,
    setPixel_frame (Texture.new 3 2) 2 1 0 1 (Color.mk 1 2 3 4) (by decide) (by decide)
      (by decide) (by decide) (by decide) (by decide) (by decide)⟩

/-- C10: for `Texture(w, h)` with `w * h < 2^32` and `x < w`, `y < h`, the `uint` index
`y * w + x` does not wrap, is below the number of allocated cells `w * h`, and neither
`getPixel` nor `setPixel` leaves the buffer. -/
theorem index_in_buffer (w h x y : Nat) (c : Color) (hov : w * h < 2 ^ 32) (hx : x < w)
    (hy : y < h) :
    y * w + x < 2 ^ 32 ∧ (Texture.new w h).index x y = y * w + x ∧
      (Texture.new w h).pixels.size = w * h ∧
      (Texture.new w h).index x y < (Texture.new w h).pixels.size ∧
      ((Texture.new w h).getPixel x y).isSome = true ∧
      ((Texture.new w h).setPixel x y c).isSome = true := by
  have hlt : y * w + x < w * h := index_lt_cells hx hy
  have hidx : (Texture.new w h).index x y = y * w + x :=
    (Texture.new w h).index_eq hov hx hy
  have hsz : (Texture.new w h).pixels.size = w * h := by
    simp only [Texture.new, Array.size_mkArray]
    exact Nat.mod_eq_of_lt hov
  have hin : (Texture.new w h).index x y < (Texture.new w h).pixels.size := by
    rw [hidx, hsz]; exact hlt
  refine ⟨lt_trans hlt hov, hidx, hsz, hin, ?_, ?_⟩
  · rw [(Texture.new w h).getPixel_inside hx hy, Array.getElem?_eq_getElem hin]
    rfl
  · rw [(Texture.new w h).setPixel_inside c hx hy hin]
    rfl

theorem index_in_buffer_witness :
    (3 : Nat) * 2 < 2 ^ 32 ∧ (1 : Nat) * 3 + 2 < 2 ^ 32 ∧
      (Texture.new 3 2).index 2 1 = 1 * 3 + 2 ∧
      (Texture.new 3 2).pixels.size = 3 * 2 ∧
      (Texture.new 3 2).index 2 1 < (Texture.new 3 2).pixels.size ∧
      ((Texture.new 3 2).getPixel 2 1).isSome = true ∧
      ((Texture.new 3 2).setPixel 2 1 (Color.mk 1 2 3 4)).isSome = true :=
  ⟨by decide, index_in_buffer 3 2 2 1 (Color.mk 1 2 3 4) (by decide) (by decide) (by decide)⟩

/-! ## Rendering and the window procedures -/

theorem invoke_gl (b : Bool) (f : Callback) (w : World) : (invoke b f w).gl = w.gl := by
  unfold invoke; split <;> rfl

theorem invoke_options (b : Bool) (f : Callback) (w : World) :
    (invoke b f w).options = w.options := by
  unfold invoke; split <;> rfl

theorem invoke_trace (b : Bool) (f : Callback) (w : World) :
    (invoke b f w).trace = w.trace ++ if b then [f] else [] := by
  unfold invoke; split <;> simp

theorem invoke_swaps (b : Bool) (f : Callback) (w : World) : (invoke b f w).swaps = w.swaps := by
  unfold invoke; split <;> rfl

theorem mainRender_swaps (w : World) : (mainRender w).swaps = w.swaps := by
  unfold mainRender; rw [invoke_swaps]

theorem mainRender_options (w : World) : (mainRender w).options = w.options := by
  unfold mainRender; rw [invoke_options]

theorem mainRender_trace (w : World) :
    (mainRender w).trace = w.trace ++ if w.options.onLoop then [Callback.onLoop] else [] := by
  unfold mainRender; rw [invoke_trace]

/-- C8 (what the code does): `mainRender` assembles exactly one quad, with the positions
`(-1,-1)`, `(1,-1)`, `(1,1)`, `(-1,1)` in this order, but each `glTexCoord2f` follows its
`glVertex2f`, so the first vertex carries the texture coordinate that was current before the
call and the others carry `(0,0)`, `(1,0)`, `(1,1)`; `(0,1)` is attached to no vertex of this
frame. -/
theorem mainRender_quad (w : World) :
    (mainRender w).gl.quads = w.gl.quads ++
      [[⟨(-1, -1), w.gl.texCoord⟩, ⟨(1, -1), (0, 0)⟩, ⟨(1, 1), (1, 0)⟩, ⟨(-1, 1), (1, 1)⟩]] ∧
    (mainRender w).gl.texCoord = (0, 1) := by
  unfold mainRender
  rw [invoke_gl]
  simp [glEnd, glTexCoord2f, glVertex2f, glBegin, glBindTexture, glColor3f, glClear,
    glClearColor, glViewport, quadsOf]

/-- C6 (what the code does): one `WM_PAINT` swaps the buffers once and calls `onLoop` twice
when it is set, once inside `mainRender` and once more in the `WM_PAINT` branch; one `Expose`
iteration of the X11 loop swaps the buffers once and calls `onLoop` once. -/
theorem paint_onLoop_calls (env : Win32.Env) (event : X11.EventType) (w : World) :
    (Win32.WndProc env w Win32.Msg.WM_PAINT).map (fun w' => (w'.swaps, w'.trace)) =
        some (w.swaps + 1,
          w.trace ++ if w.options.onLoop then [Callback.onLoop, Callback.onLoop] else []) ∧
    (X11.mainLoop [some X11.EventType.Expose] event w).map
        (fun r => (r.1.swaps, r.1.trace)) =
        some (w.swaps + 1, w.trace ++ if w.options.onLoop then [Callback.onLoop] else []) := by
  constructor
  · simp only [Win32.WndProc, Option.map_some', invoke_trace, invoke_swaps, mainRender_trace,
      mainRender_swaps, mainRender_options]
    cases w.options.onLoop <;> simp
  · simp only [X11.mainLoop, Option.getD_some, Option.map_some', mainRender_trace,
      mainRender_swaps]

/-- C7 (what the code does): on Win32, with no matching pixel format (`ChoosePixelFormat`
returns `0`) and a window handle returned, `WM_CREATE` still calls `onOpened`, and
`createWindow` returns the status `0` given to `PostQuitMessage`. -/
theorem createWindow_ignores_pixel_format :
    (Win32.createWindow
        { pixelFormat := 0, clientWidth := 4, clientHeight := 3,
          createMsgs := [Win32.Msg.WM_CREATE], hWnd := true,
          loopMsgs := [Win32.Msg.WM_DESTROY], quitParam := 0 }
        { title := "", width := 4, height := 3, pixelSize := 2, onOpened := true,
          onLoop := true, onClosed := true }
        (World.init fun _ => 0)).map (fun r => (r.1.pixelFormat, r.1.trace, r.2)) =
      some (0, [Callback.onOpened, Callback.onClosed], 0) := by
  decide

/-- The failures that `createWindow` does report: on X11 a missing display or a missing
visual, on Win32 a missing window handle (here with no message delivered during
`CreateWindowEx`); the status is `1` and no callback is recorded. -/
theorem createWindow_reported_failures (t_options : WindowOptions) (w : World) :
    (∀ env : X11.Env, (env.display = false ∨ env.visual = false) →
      (X11.createWindow env t_options w).map (fun r => (r.1.trace, r.2)) =
        some (w.trace, some 1)) ∧
    (∀ env : Win32.Env, env.hWnd = false → env.createMsgs = [] →
      (Win32.createWindow env t_options w).map (fun r => (r.1.trace, r.2)) =
        some (w.trace, 1)) := by
  constructor
  · intro env h
    unfold X11.createWindow
    rcases h with h | h
    · simp [h]
    · cases hd : env.display <;> simp [h]
  · intro env h1 h2
    simp [Win32.createWindow, h1, h2, Win32.dispatch]

/-! ## `float` arithmetic: rounding lemmas -/

theorem f32Shift_le (t : Nat) : ∀ fuel n, n < 2 ^ (24 + t) → f32Shift fuel n ≤ t := by
  induction t with
  | zero =>
    intro fuel n h
    cases fuel with
    | zero => simp [f32Shift]
    | succ f =>
      have h' : n < 2 ^ 24 := h
      unfold f32Shift
      rw [if_pos h']
  | succ t ih =>
    intro fuel n h
    cases fuel with
    | zero => simp [f32Shift]
    | succ f =>
      unfold f32Shift
      split
      · omega
      · have : n / 2 < 2 ^ (24 + t) := by
          rw [Nat.div_lt_iff_lt_mul (by norm_num)]
          calc n < 2 ^ (24 + (t + 1)) := h
            _ = 2 ^ (24 + t) * 2 := by rw [← Nat.add_assoc, Nat.pow_succ]
        have := ih f (n / 2) this
        omega

theorem f32Shift_pos_le : ∀ fuel n, n ≤ fuel → 0 < f32Shift fuel n →
    2 ^ (23 + f32Shift fuel n) ≤ n := by
  intro fuel
  induction fuel with
  | zero => intro n _ h; simp [f32Shift] at h
  | succ f ih =>
    intro n hn h
    unfold f32Shift at h ⊢
    by_cases hlt : n < 2 ^ 24
    · rw [if_pos hlt] at h
      omega
    · rw [if_neg hlt] at h ⊢
      have hn2 : n / 2 ≤ f := by omega
      by_cases h0 : 0 < f32Shift f (n / 2)
      · have := ih (n / 2) hn2 h0
        calc 2 ^ (23 + (f32Shift f (n / 2) + 1)) = 2 ^ (23 + f32Shift f (n / 2)) * 2 := by
              rw [← Nat.add_assoc, Nat.pow_succ]
          _ ≤ n / 2 * 2 := Nat.mul_le_mul_right 2 this
          _ ≤ n := Nat.div_mul_le_self n 2
      · have : f32Shift f (n / 2) = 0 := by omega
        rw [this]
        omega

theorem roundQuot_ge {x d N : Nat} (hd : 0 < d) (h : N * d ≤ x) : N ≤ roundQuot x d := by
  have : N ≤ x / d := (Nat.le_div_iff_mul_le hd).2 h
  unfold roundQuot
  split <;> omega

theorem roundQuot_le {x d N : Nat} (hd : 0 < d) (h : x ≤ N * d) : roundQuot x d ≤ N := by
  have hq : x / d ≤ N := by
    calc x / d ≤ N * d / d := Nat.div_le_div_right h
      _ = N := Nat.mul_div_cancel N hd
  unfold roundQuot
  by_cases hlt : x / d < N
  · split <;> omega
  · have heq : x / d = N := by omega
    have hx : x = N * d := by
      apply le_antisymm h
      rw [← heq]
      exact Nat.div_mul_le_self x d
    have hr : x % d = 0 := by rw [hx]; exact Nat.mul_mod_left N d
    rw [if_neg]
    · omega
    · rw [hr]; omega

theorem roundQuot_gt {x d N : Nat} (hd : 0 < d) (h : (2 * N + 1) * d < 2 * x) :
    N + 1 ≤ roundQuot x d := by
  have hNd : N * d ≤ x := by nlinarith
  have hq : N ≤ x / d := (Nat.le_div_iff_mul_le hd).2 hNd
  unfold roundQuot
  by_cases hlt : N < x / d
  · split <;> omega
  · have heq : x / d = N := by omega
    have hx : d * (x / d) + x % d = x := Nat.div_add_mod x d
    rw [heq] at hx
    rw [if_pos]
    · omega
    · left
      nlinarith

theorem f32OfRat_some {a b z : Nat} (hz : f32OfRat a b = some z) :
    z = roundQuot (a * F32_UNIT)
      (b * 2 ^ f32Shift (a * F32_UNIT / b) (a * F32_UNIT / b)) *
        2 ^ f32Shift (a * F32_UNIT / b) (a * F32_UNIT / b) := by
  unfold f32OfRat at hz
  split at hz
  · exact absurd hz (by simp)
  · simp only at hz
    split at hz
    · exact (Option.some.inj hz).symm
    · exact absurd hz (by simp)

/-- The rounded value of `a / b` lies between any two bounds of `a / b` that are multiples of
a unit in the last place at least as coarse as the one used. -/
theorem f32OfRat_sandwich {a b l u t : Nat} (hb : 0 < b)
    (ht : a * F32_UNIT / b < 2 ^ (24 + t)) (hlo : 2 ^ t ∣ l) (hhi : 2 ^ t ∣ u)
    (h1 : l * b ≤ a * F32_UNIT) (h2 : a * F32_UNIT ≤ u * b)
    (hfin : u < 2 ^ 128 * F32_UNIT) :
    ∃ z, f32OfRat a b = some z ∧ l ≤ z ∧ z ≤ u := by
  have hs := f32Shift_le t (a * F32_UNIT / b) (a * F32_UNIT / b) ht
  generalize hsdef : f32Shift (a * F32_UNIT / b) (a * F32_UNIT / b) = s at hs
  have hdvd : 2 ^ s ∣ 2 ^ t := pow_dvd_pow 2 hs
  obtain ⟨L, hL⟩ := dvd_trans hdvd hlo
  obtain ⟨H, hH⟩ := dvd_trans hdvd hhi
  have hd : 0 < b * 2 ^ s := Nat.mul_pos hb (Nat.pow_pos (by norm_num))
  have hge : L ≤ roundQuot (a * F32_UNIT) (b * 2 ^ s) :=
    roundQuot_ge hd (by
      calc L * (b * 2 ^ s) = 2 ^ s * L * b := by ring
        _ = l * b := by rw [hL]
        _ ≤ a * F32_UNIT := h1)
  have hle : roundQuot (a * F32_UNIT) (b * 2 ^ s) ≤ H :=
    roundQuot_le hd (by
      calc a * F32_UNIT ≤ u * b := h2
        _ = 2 ^ s * H * b := by rw [hH]
        _ = H * (b * 2 ^ s) := by ring)
  have hzlo : l ≤ roundQuot (a * F32_UNIT) (b * 2 ^ s) * 2 ^ s := by
    rw [hL, Nat.mul_comm (2 ^ s) L]
    exact Nat.mul_le_mul_right _ hge
  have hzhi : roundQuot (a * F32_UNIT) (b * 2 ^ s) * 2 ^ s ≤ u := by
    rw [hH, Nat.mul_comm (2 ^ s) H]
    exact Nat.mul_le_mul_right _ hle
  refine ⟨roundQuot (a * F32_UNIT) (b * 2 ^ s) * 2 ^ s, ?_, hzlo, hzhi⟩
  unfold f32OfRat
  rw [if_neg (by omega)]
  simp only [hsdef]
  rw [if_pos (lt_of_le_of_lt hzhi hfin)]

/-- The rounded value of `a / b` is above a multiple `l` of the unit in the last place when
`a / b` is above the midpoint that follows `l`. -/
theorem f32OfRat_gt {a b l t z : Nat} (hb : 0 < b)
    (ht : a * F32_UNIT / b < 2 ^ (24 + t)) (hlo : 2 ^ t ∣ l)
    (hmid : 2 * l * b + b * 2 ^ t < 2 * (a * F32_UNIT))
    (hz : f32OfRat a b = some z) : l < z := by
  have hzeq := f32OfRat_some hz
  have hs := f32Shift_le t (a * F32_UNIT / b) (a * F32_UNIT / b) ht
  generalize f32Shift (a * F32_UNIT / b) (a * F32_UNIT / b) = s at hs hzeq
  have hdvd : 2 ^ s ∣ 2 ^ t := pow_dvd_pow 2 hs
  obtain ⟨L, hL⟩ := dvd_trans hdvd hlo
  have hd : 0 < b * 2 ^ s := Nat.mul_pos hb (Nat.pow_pos (by norm_num))
  have hpow : 2 ^ s ≤ 2 ^ t := Nat.pow_le_pow_right (by norm_num) hs
  have hgt : L + 1 ≤ roundQuot (a * F32_UNIT) (b * 2 ^ s) :=
    roundQuot_gt hd (by
      calc (2 * L + 1) * (b * 2 ^ s) = 2 * (2 ^ s * L) * b + b * 2 ^ s := by ring
        _ = 2 * l * b + b * 2 ^ s := by rw [hL]
        _ ≤ 2 * l * b + b * 2 ^ t := by
            exact Nat.add_le_add_left (Nat.mul_le_mul_left b hpow) _
        _ < 2 * (a * F32_UNIT) := hmid)
  have hpos : 0 < 2 ^ s := Nat.pow_pos (by norm_num)
  calc l = L * 2 ^ s := by rw [hL, Nat.mul_comm]
    _ < (L + 1) * 2 ^ s := by nlinarith
    _ ≤ roundQuot (a * F32_UNIT) (b * 2 ^ s) * 2 ^ s := Nat.mul_le_mul_right _ hgt
    _ = z := hzeq.symm

/-- The rounded value of `a / b` is positive when `a / b` is at least one unit. -/
theorem f32OfRat_pos {a b z : Nat} (hb : 0 < b) (h : b ≤ a * F32_UNIT)
    (hz : f32OfRat a b = some z) : 0 < z := by
  have hzeq := f32OfRat_some hz
  have hsp := f32Shift_pos_le (a * F32_UNIT / b) (a * F32_UNIT / b) le_rfl
  generalize f32Shift (a * F32_UNIT / b) (a * F32_UNIT / b) = s at hsp hzeq
  have hd : 0 < b * 2 ^ s := Nat.mul_pos hb (Nat.pow_pos (by norm_num))
  have hpos : 0 < 2 ^ s := Nat.pow_pos (by norm_num)
  have hds : 1 * (b * 2 ^ s) ≤ a * F32_UNIT := by
    rw [Nat.one_mul]
    by_cases h0 : 0 < s
    · have h23 := hsp h0
      have h2s : 2 ^ s ≤ a * F32_UNIT / b := by
        calc 2 ^ s ≤ 2 ^ (23 + s) := Nat.pow_le_pow_right (by norm_num) (by omega)
          _ ≤ a * F32_UNIT / b := h23
      calc b * 2 ^ s ≤ b * (a * F32_UNIT / b) := Nat.mul_le_mul_left b h2s
        _ ≤ a * F32_UNIT := Nat.mul_div_le _ _
    · have : s = 0 := by omega
      rw [this, pow_zero, Nat.mul_one]
      exact h
  have hrq := roundQuot_ge hd hds
  rw [hzeq]
  exact Nat.mul_pos (by omega) hpos

theorem F32_UNIT_pos : 0 < F32_UNIT := Nat.pow_pos (by norm_num)

/-- A quotient that is an integer of at most 24 bits is computed exactly. -/
theorem f32OfRat_exact {a b k : Nat} (hb : 0 < b) (hk : k ≤ 2 ^ 24) (ha : a = k * b) :
    f32OfRat a b = some (k * F32_UNIT) := by
  have hquot : a * F32_UNIT / b = k * F32_UNIT := by
    rw [ha, Nat.mul_right_comm, Nat.mul_div_cancel _ hb]
  have heq : k * F32_UNIT * b = a * F32_UNIT := by rw [ha]; ring
  have hfin : k * F32_UNIT < 2 ^ 128 * F32_UNIT :=
    Nat.mul_lt_mul_of_pos_right (lt_of_le_of_lt hk (by norm_num)) F32_UNIT_pos
  have key : ∃ z, f32OfRat a b = some z ∧ k * F32_UNIT ≤ z ∧ z ≤ k * F32_UNIT := by
    rcases Nat.lt_or_ge k (2 ^ 24) with hlt | hge
    · refine f32OfRat_sandwich (t := 149) hb ?_ ?_ ?_ (le_of_eq heq) (le_of_eq heq.symm) hfin
      · rw [hquot, pow_add]
        exact Nat.mul_lt_mul_of_pos_right hlt F32_UNIT_pos
      · exact Dvd.intro_left k rfl
      · exact Dvd.intro_left k rfl
    · have hk' : k = 2 ^ 24 := le_antisymm hk hge
      have hdvd : 2 ^ 150 ∣ k * F32_UNIT := by
        rw [hk']; unfold F32_UNIT; rw [← pow_add]; exact pow_dvd_pow 2 (by norm_num)
      refine f32OfRat_sandwich (t := 150) hb ?_ hdvd hdvd (le_of_eq heq)
        (le_of_eq heq.symm) hfin
      rw [hquot, hk']; unfold F32_UNIT; rw [← pow_add]
      exact Nat.pow_lt_pow_right (by norm_num) (by norm_num)
  obtain ⟨z, hz, h1, h2⟩ := key
  rw [hz, le_antisymm h2 h1]

theorem f32OfUint_exact {u : Nat} (hu : u ≤ 2 ^ 24) : f32OfUint u = some (u * F32_UNIT) :=
  f32OfRat_exact (by norm_num) hu (Nat.mul_one u).symm

/-- The conversion of a `uint` above `2^24` is finite and lies between `2^24` and `2^32`. -/
theorem f32OfUint_large {u : Nat} (h1 : 2 ^ 24 ≤ u) (h2 : u < 2 ^ 32) :
    ∃ y, f32OfUint u = some y ∧ 2 ^ 24 * F32_UNIT ≤ y ∧ y ≤ 2 ^ 32 * F32_UNIT := by
  unfold f32OfUint
  refine f32OfRat_sandwich (t := 157) (by norm_num) ?_ ?_ ?_ ?_ ?_ ?_
  · rw [Nat.div_one]
    calc u * F32_UNIT < 2 ^ 32 * F32_UNIT := Nat.mul_lt_mul_of_pos_right h2 F32_UNIT_pos
      _ = 2 ^ (24 + 157) := by unfold F32_UNIT; rw [← pow_add]
  · unfold F32_UNIT; rw [← pow_add]; exact pow_dvd_pow 2 (by norm_num)
  · unfold F32_UNIT; rw [← pow_add]; exact pow_dvd_pow 2 (by norm_num)
  · rw [Nat.mul_one]; exact Nat.mul_le_mul_right _ h1
  · rw [Nat.mul_one]; exact Nat.mul_le_mul_right _ (le_of_lt h2)
  · exact Nat.mul_lt_mul_of_pos_right (by norm_num) F32_UNIT_pos

theorem ceilf_int (k : Nat) : ceilf (k * F32_UNIT) = k * F32_UNIT := by
  unfold ceilf
  have h : (k * F32_UNIT + F32_UNIT - 1) / F32_UNIT = k := by
    apply Nat.div_eq_of_lt_le
    · have := F32_UNIT_pos; omega
    · have := F32_UNIT_pos
      rw [Nat.succ_mul]; omega
  rw [h]

theorem ceilf_between {k z : Nat} (h1 : k * F32_UNIT < z) (h2 : z ≤ (k + 1) * F32_UNIT) :
    ceilf z = (k + 1) * F32_UNIT := by
  unfold ceilf
  have h : (z + F32_UNIT - 1) / F32_UNIT = k + 1 := by
    apply Nat.div_eq_of_lt_le
    · rw [Nat.add_mul, Nat.one_mul]; omega
    · rw [Nat.succ_mul]
      have := F32_UNIT_pos; omega
  rw [h]

theorem f32ToUint_int {k : Nat} (hk : k < 2 ^ 32) : f32ToUint (k * F32_UNIT) = some k := by
  unfold f32ToUint
  rw [Nat.mul_div_cancel _ F32_UNIT_pos, if_pos (show k < UINT_SIZE from hk)]

theorem scaled_of {extent pixelSize a b q : Nat} (ha : f32OfUint extent = some a)
    (hb : f32OfUint pixelSize = some b) (hq : f32OfRat a b = some q) :
    scaled extent pixelSize = f32ToUint (ceilf q) := by
  unfold scaled
  rw [ha, hb, Option.bind_eq_bind, Option.some_bind, Option.some_bind]
  unfold f32Div
  rw [hq, Option.some_bind]

theorem ceilDiv_of_dvd {W p k : Nat} (hp : 0 < p) (h : W = k * p) : ceilDiv W p = k := by
  unfold ceilDiv
  apply Nat.div_eq_of_lt_le
  · rw [h]; omega
  · rw [h, Nat.succ_mul]; omega

theorem ceilDiv_of_rem {W p k r : Nat} (h : W = k * p + r) (hr : 0 < r) (hrp : r < p) :
    ceilDiv W p = k + 1 := by
  unfold ceilDiv
  apply Nat.div_eq_of_lt_le
  · rw [h, Nat.add_mul, Nat.one_mul]; omega
  · rw [h, Nat.succ_mul, Nat.add_mul, Nat.one_mul]; omega

theorem F32_UNIT_split : F32_UNIT = 2 ^ 23 * 2 ^ 126 := by
  unfold F32_UNIT; rw [← pow_add]

theorem pow_24_le_F32_UNIT : 2 ^ 24 ≤ F32_UNIT :=
  Nat.pow_le_pow_right (by norm_num) (by norm_num)

theorem pow_173 : 2 ^ (24 + 149) = 2 ^ 24 * F32_UNIT := by
  unfold F32_UNIT; rw [pow_add]

/-- The quotient of two exactly converted operands, when the division leaves a remainder:
the rounded quotient is strictly between `k` and `k + 1` or is `k + 1`. -/
theorem f32OfRat_rem {W p k r : Nat} (hW : W ≤ 2 ^ 24) (hp : 1 ≤ p) (hp24 : p ≤ 2 ^ 24)
    (hdiv : W = k * p + r) (hr0 : 0 < r) (hr : r < p) :
    ∃ z, f32OfRat (W * F32_UNIT) (p * F32_UNIT) = some z ∧
      k * F32_UNIT < z ∧ z ≤ (k + 1) * F32_UNIT := by
  have hU := F32_UNIT_pos
  have hbpos : 0 < p * F32_UNIT := Nat.mul_pos hp hU
  have hkp : k * p < W := by omega
  have hk1 : (k + 1) * p ≤ 2 ^ 24 * p := by
    apply Nat.mul_le_mul_right
    have : k * 1 ≤ k * p := Nat.mul_le_mul_left k hp
    omega
  have hWlt : W < (k + 1) * p := by rw [Nat.add_mul, Nat.one_mul]; omega
  have hUU : 0 < F32_UNIT * F32_UNIT := Nat.mul_pos hU hU
  have hk24 : k + 1 ≤ 2 ^ 24 := by
    have : k * 1 ≤ k * p := Nat.mul_le_mul_left k hp
    omega
  have ht : W * F32_UNIT * F32_UNIT / (p * F32_UNIT) < 2 ^ (24 + 149) := by
    rw [pow_173, Nat.div_lt_iff_lt_mul hbpos]
    calc W * F32_UNIT * F32_UNIT = W * (F32_UNIT * F32_UNIT) := by ring
      _ < (2 ^ 24 * p) * (F32_UNIT * F32_UNIT) :=
          Nat.mul_lt_mul_of_pos_right (lt_of_lt_of_le hWlt hk1) hUU
      _ = 2 ^ 24 * F32_UNIT * (p * F32_UNIT) := by ring
  have h1 : k * F32_UNIT * (p * F32_UNIT) ≤ W * F32_UNIT * F32_UNIT := by
    calc k * F32_UNIT * (p * F32_UNIT) = (k * p) * (F32_UNIT * F32_UNIT) := by ring
      _ ≤ W * (F32_UNIT * F32_UNIT) := Nat.mul_le_mul_right _ (le_of_lt hkp)
      _ = W * F32_UNIT * F32_UNIT := by ring
  have h2 : W * F32_UNIT * F32_UNIT ≤ (k + 1) * F32_UNIT * (p * F32_UNIT) := by
    calc W * F32_UNIT * F32_UNIT = W * (F32_UNIT * F32_UNIT) := by ring
      _ ≤ ((k + 1) * p) * (F32_UNIT * F32_UNIT) := Nat.mul_le_mul_right _ (le_of_lt hWlt)
      _ = (k + 1) * F32_UNIT * (p * F32_UNIT) := by ring
  have hfin : (k + 1) * F32_UNIT < 2 ^ 128 * F32_UNIT :=
    Nat.mul_lt_mul_of_pos_right (lt_of_le_of_lt hk24 (by norm_num)) hU
  obtain ⟨z, hz, _, hz2⟩ :=
    f32OfRat_sandwich (t := 149) hbpos ht (Dvd.intro_left k rfl) (Dvd.intro_left (k + 1) rfl)
      h1 h2 hfin
  refine ⟨z, hz, ?_, hz2⟩
  rcases Nat.eq_zero_or_pos k with hk0 | hkpos
  · rw [hk0, Nat.zero_mul]
    refine f32OfRat_pos hbpos ?_ hz
    calc p * F32_UNIT ≤ F32_UNIT * F32_UNIT :=
          Nat.mul_le_mul_right _ (le_trans hp24 pow_24_le_F32_UNIT)
      _ = 1 * F32_UNIT * F32_UNIT := by ring
      _ ≤ W * F32_UNIT * F32_UNIT :=
          Nat.mul_le_mul_right _ (Nat.mul_le_mul_right _ (by omega))
  · have he1 : 2 ^ Nat.log 2 k ≤ k := Nat.pow_log_le_self 2 (by omega)
    have he2 : k < 2 ^ (Nat.log 2 k + 1) := Nat.lt_pow_succ_log_self (by norm_num) k
    generalize Nat.log 2 k = e at he1 he2
    have he : e ≤ 23 := by
      have : 2 ^ e < 2 ^ 24 := lt_of_le_of_lt he1 (by omega)
      have := (Nat.pow_lt_pow_iff_right (by norm_num : 1 < 2)).1 this
      omega
    have ht' : W * F32_UNIT * F32_UNIT / (p * F32_UNIT) < 2 ^ (24 + (e + 126)) := by
      have hpw : 2 ^ (24 + (e + 126)) = 2 ^ (e + 1) * F32_UNIT := by
        unfold F32_UNIT; rw [← pow_add]; congr 1; omega
      rw [hpw, Nat.div_lt_iff_lt_mul hbpos]
      have hW2 : W < 2 ^ (e + 1) * p :=
        lt_of_lt_of_le hWlt (Nat.mul_le_mul_right p (by omega))
      calc W * F32_UNIT * F32_UNIT = W * (F32_UNIT * F32_UNIT) := by ring
        _ < (2 ^ (e + 1) * p) * (F32_UNIT * F32_UNIT) := Nat.mul_lt_mul_of_pos_right hW2 hUU
        _ = 2 ^ (e + 1) * F32_UNIT * (p * F32_UNIT) := by ring
    have hlo : 2 ^ (e + 126) ∣ k * F32_UNIT :=
      dvd_mul_of_dvd_right (pow_dvd_pow 2 (by omega)) k
    have hm : p * 2 ^ e < 2 ^ 24 :=
      lt_of_le_of_lt (Nat.mul_le_mul_left p he1) (by rw [Nat.mul_comm]; omega)
    have h3 : p * F32_UNIT * 2 ^ (e + 126) < 2 * r * F32_UNIT * F32_UNIT := by
      have h126 : 0 < 2 ^ 126 := Nat.pow_pos (by norm_num)
      calc p * F32_UNIT * 2 ^ (e + 126) = (p * 2 ^ e) * 2 ^ 126 * F32_UNIT := by
            rw [pow_add]; ring
        _ < 2 ^ 24 * 2 ^ 126 * F32_UNIT :=
            Nat.mul_lt_mul_of_pos_right (Nat.mul_lt_mul_of_pos_right hm h126) hU
        _ = 2 * 1 * F32_UNIT * F32_UNIT := by
            rw [F32_UNIT_split]; ring
        _ ≤ 2 * r * F32_UNIT * F32_UNIT :=
            Nat.mul_le_mul_right _ (Nat.mul_le_mul_right _ (Nat.mul_le_mul_left 2 hr0))
    have hmid : 2 * (k * F32_UNIT) * (p * F32_UNIT) + p * F32_UNIT * 2 ^ (e + 126) <
        2 * (W * F32_UNIT * F32_UNIT) := by
      have : 2 * (W * F32_UNIT * F32_UNIT) =
          2 * (k * F32_UNIT) * (p * F32_UNIT) + 2 * r * F32_UNIT * F32_UNIT := by
        rw [hdiv]; ring
      rw [this]
      exact Nat.add_lt_add_left h3 _
    exact f32OfRat_gt hbpos ht' hlo hmid hz

/-- For an extent of at most `2^24` and a `uint` pixel size of at least `1`, the `float`
computation `(uint)ceilf((float)extent / pixelSize)` is defined and is the integer ceiling
of the quotient. -/
theorem scaled_eq {W p : Nat} (hW : W ≤ 2 ^ 24) (hp : 1 ≤ p) (hp32 : p < 2 ^ 32) :
    scaled W p = some (ceilDiv W p) := by
  have hU := F32_UNIT_pos
  have hWf := f32OfUint_exact hW
  rcases Nat.lt_or_ge (2 ^ 24) p with hbig | hsmall
  · obtain ⟨y, hy, hy1, hy2⟩ := f32OfUint_large (le_of_lt hbig) hp32
    have hypos : 0 < y := lt_of_lt_of_le (Nat.mul_pos (by norm_num) hU) hy1
    rcases Nat.eq_zero_or_pos W with h0 | hWpos
    · have hq : f32OfRat (W * F32_UNIT) y = some (0 * F32_UNIT) :=
        f32OfRat_exact hypos (by norm_num) (by rw [h0]; simp)
      rw [scaled_of hWf hy hq, ceilf_int, f32ToUint_int (by norm_num),
        ceilDiv_of_dvd (k := 0) hp (by rw [h0]; simp)]
    · have hUy : F32_UNIT < y := by
        calc F32_UNIT = 1 * F32_UNIT := (Nat.one_mul _).symm
          _ < 2 ^ 24 * F32_UNIT := Nat.mul_lt_mul_of_pos_right (by norm_num) hU
          _ ≤ y := hy1
      have hWy : W * F32_UNIT ≤ y := le_trans (Nat.mul_le_mul_right _ hW) hy1
      have ht : W * F32_UNIT * F32_UNIT / y < 2 ^ (24 + 149) := by
        rw [pow_173, Nat.div_lt_iff_lt_mul hypos]
        calc W * F32_UNIT * F32_UNIT ≤ 2 ^ 24 * F32_UNIT * F32_UNIT :=
              Nat.mul_le_mul_right _ (Nat.mul_le_mul_right _ hW)
          _ < 2 ^ 24 * F32_UNIT * y :=
              Nat.mul_lt_mul_of_pos_left hUy (Nat.mul_pos (by norm_num) hU)
      have h2 : W * F32_UNIT * F32_UNIT ≤ 1 * F32_UNIT * y := by
        calc W * F32_UNIT * F32_UNIT ≤ y * F32_UNIT := Nat.mul_le_mul_right _ hWy
          _ = 1 * F32_UNIT * y := by ring
      obtain ⟨z, hz, _, hz2⟩ :=
        f32OfRat_sandwich (l := 0) (t := 149) hypos ht (dvd_zero _) (Dvd.intro_left 1 rfl)
          (by rw [Nat.zero_mul]; exact Nat.zero_le _) h2
          (Nat.mul_lt_mul_of_pos_right (by norm_num) hU)
      have hzpos : 0 < z := by
        refine f32OfRat_pos hypos ?_ hz
        calc y ≤ 2 ^ 32 * F32_UNIT := hy2
          _ ≤ F32_UNIT * F32_UNIT :=
              Nat.mul_le_mul_right _ (Nat.pow_le_pow_right (by norm_num) (by norm_num))
          _ = 1 * F32_UNIT * F32_UNIT := by ring
          _ ≤ W * F32_UNIT * F32_UNIT :=
              Nat.mul_le_mul_right _ (Nat.mul_le_mul_right _ hWpos)
      have hc : ceilf z = (0 + 1) * F32_UNIT :=
        ceilf_between (by rw [Nat.zero_mul]; exact hzpos) (by rw [Nat.zero_add]; exact hz2)
      rw [scaled_of hWf hy hz, hc, f32ToUint_int (by norm_num),
        ceilDiv_of_rem (k := 0) (r := W) (by simp) hWpos (lt_of_le_of_lt hW hbig)]
  · have hpf := f32OfUint_exact hsmall
    have hdiv : W = W / p * p + W % p := by
      rw [Nat.mul_comm]; exact (Nat.div_add_mod W p).symm
    have hr : W % p < p := Nat.mod_lt _ hp
    have hk : W / p ≤ 2 ^ 24 := le_trans (Nat.div_le_self W p) hW
    rcases Nat.eq_zero_or_pos (W % p) with hr0 | hr0
    · rw [hr0, Nat.add_zero] at hdiv
      have hq : f32OfRat (W * F32_UNIT) (p * F32_UNIT) = some (W / p * F32_UNIT) :=
        f32OfRat_exact (Nat.mul_pos hp hU) hk (by
          calc W * F32_UNIT = W / p * p * F32_UNIT := by rw [← hdiv]
            _ = W / p * (p * F32_UNIT) := by ring)
      rw [scaled_of hWf hpf hq, ceilf_int,
        f32ToUint_int (lt_of_le_of_lt hk (by norm_num)), ceilDiv_of_dvd hp hdiv]
    · obtain ⟨z, hz, hz1, hz2⟩ := f32OfRat_rem hW hp hsmall hdiv hr0 hr
      have hk1 : W / p + 1 < 2 ^ 32 := by omega
      rw [scaled_of hWf hpf hz, ceilf_between hz1 hz2, f32ToUint_int hk1,
        ceilDiv_of_rem hdiv hr0 hr]

/-! ## `initDrawTarget` -/

/-- The loop of `initDrawTarget` returns normally when the remaining indices are inside the
buffer and the counter stays an `int`; it changes only the cells and the `rand` position. -/
theorem initLoop_spec (k : Nat) :
    ∀ (i : Nat) (w : World), i + k = w.drawTarget.pixels.size → i + k ≤ INT_MAX →
      ∃ w', initLoop k i w = some w' ∧ w'.options = w.options ∧ w'.trace = w.trace ∧
        w'.swaps = w.swaps ∧ w'.drawTarget.width = w.drawTarget.width ∧
        w'.drawTarget.height = w.drawTarget.height ∧
        w'.drawTarget.pixels.size = w.drawTarget.pixels.size := by
  induction k with
  | zero =>
    intro i w _ _
    exact ⟨w, rfl, rfl, rfl, rfl, rfl, rfl, rfl⟩
  | succ k ih =>
    intro i w hsz hmax
    have hi : i < w.drawTarget.pixels.size := by omega
    have hi1 : i + 1 ≤ INT_MAX := by omega
    obtain ⟨w', h1, h2, h3, h4, h5, h6, h7⟩ :=
      ih (i + 1)
        { w with
          drawTarget :=
            { w.drawTarget with
              pixels := w.drawTarget.pixels.set ⟨i, hi⟩
                (Color.mk (w.rand w.randCalls % 255) (w.rand (w.randCalls + 1) % 255)
                  (w.rand (w.randCalls + 2) % 255) 255) }
          randCalls := w.randCalls + 3 }
        (by simp only [Array.size_set]; omega) (by omega)
    refine ⟨w', ?_, h2, h3, h4, h5, h6, ?_⟩
    · simp only [initLoop, hi, hi1, dite_true, if_true]
      exact h1
    · rw [h7]; simp only [Array.size_set]

/-- When both `float` computations are defined and the canvas has fewer than `2^31` cells,
`initDrawTarget` returns normally and the new canvas has the computed dimensions; the options
and the callback record are unchanged. -/
theorem initDrawTarget_of_scaled (w : World) (sw sh : Nat)
    (h1 : scaled w.options.width w.options.pixelSize = some sw)
    (h2 : scaled w.options.height w.options.pixelSize = some sh)
    (hcells : sw * sh < 2 ^ 31) :
    ∃ w', initDrawTarget w = some w' ∧ w'.drawTarget.width = sw ∧
      w'.drawTarget.height = sh ∧ w'.drawTarget.pixels.size = sw * sh ∧
      w'.options = w.options ∧ w'.trace = w.trace ∧ w'.swaps = w.swaps := by
  have hmod : (sw * sh) % UINT_SIZE = sw * sh :=
    Nat.mod_eq_of_lt (lt_trans hcells (by decide))
  obtain ⟨w1, hl, ho, ht, hs, hwd, hht, hsz⟩ :=
    initLoop_spec ((sw * sh) % UINT_SIZE) 0 { w with drawTarget := Texture.new sw sh }
      (by simp only [Texture.new, Array.size_mkArray]; omega)
      (by rw [hmod]; unfold INT_MAX; omega)
  refine ⟨{ w1 with dts := (Sprite.new w1.drawTarget w1.gl).1,
                    gl := (Sprite.new w1.drawTarget w1.gl).2 }, ?_, hwd, hht, ?_, ho, ht, hs⟩
  · unfold initDrawTarget
    rw [h1, Option.bind_eq_bind, Option.some_bind, h2, Option.some_bind, hl,
      Option.bind_eq_bind, Option.some_bind]
  · rw [show w1.drawTarget.pixels.size = _ from hsz]
    simp only [Texture.new, Array.size_mkArray]
    exact hmod

/-- C4 (as amended): for a client area of at most `2^24` in each direction, a `uint` pixel
size of at least `1` and a canvas of fewer than `2^31` cells, `initDrawTarget` returns
normally and replaces the canvas with one whose width is `ceil(W / pixelSize)` and whose
height is `ceil(H / pixelSize)`. -/
theorem initDrawTarget_canvas (w : World) (hW : w.options.width ≤ 2 ^ 24)
    (hH : w.options.height ≤ 2 ^ 24) (hp : 1 ≤ w.options.pixelSize)
    (hp32 : w.options.pixelSize < 2 ^ 32)
    (hcells : ceilDiv w.options.width w.options.pixelSize *
      ceilDiv w.options.height w.options.pixelSize < 2 ^ 31) :
    ∃ w', initDrawTarget w = some w' ∧
      w'.drawTarget.width = ceilDiv w.options.width w.options.pixelSize ∧
      w'.drawTarget.height = ceilDiv w.options.height w.options.pixelSize := by
  obtain ⟨w', h, hw, hh, _⟩ :=
    initDrawTarget_of_scaled w _ _ (scaled_eq hW hp hp32) (scaled_eq hH hp hp32) hcells
  exact ⟨w', h, hw, hh⟩


theorem initDrawTarget_canvas_witness :
    (World.sample 801 600 10).options.width ≤ 2 ^ 24 ∧
      (World.sample 801 600 10).options.height ≤ 2 ^ 24 ∧
      1 ≤ (World.sample 801 600 10).options.pixelSize ∧
      ∃ w', initDrawTarget (World.sample 801 600 10) = some w' ∧
        w'.drawTarget.width = 81 ∧ w'.drawTarget.height = 60 :=
  ⟨by decide, by decide, by decide,
    initDrawTarget_canvas (World.sample 801 600 10) (by decide) (by decide) (by decide)
      (by decide) (by decide)⟩

/-- The first example of the specification: a client area of `800 x 600` with pixel size `10`
gives a canvas of `80 x 60`. -/
theorem initDrawTarget_800_600_10 :
    ∃ w', initDrawTarget (World.sample 800 600 10) = some w' ∧
      w'.drawTarget.width = 80 ∧ w'.drawTarget.height = 60 := by
  obtain ⟨w', h, hw, hh, _⟩ :=
    initDrawTarget_of_scaled (World.sample 800 600 10) 80 60
      (scaled_eq (by decide) (by decide) (by decide))
      (scaled_eq (by decide) (by decide) (by decide)) (by decide)
  exact ⟨w', h, hw, hh⟩

/-- C4 (as stated) fails: `(float)16777217` is `16777216.0f`, so a client area `16777217`
wide with pixel size `1` gives a canvas `16777216` wide, not `ceil(16777217 / 1)`. -/
theorem initDrawTarget_float_rounding :
    ∃ w', initDrawTarget (World.sample 16777217 1 1) = some w' ∧
      w'.drawTarget.width = 16777216 ∧
      w'.drawTarget.width ≠ ceilDiv (World.sample 16777217 1 1).options.width
        (World.sample 16777217 1 1).options.pixelSize := by
  obtain ⟨w', h, hw, _⟩ :=
    initDrawTarget_of_scaled (World.sample 16777217 1 1) 16777216 1
      (by decide) (by decide) (by decide)
  refine ⟨w', h, hw, ?_⟩
  rw [hw]
  decide

/-- A client width that `float` rounds up to `2^32` makes the conversion to `uint`
undefined: `initDrawTarget` does not return normally. -/
theorem initDrawTarget_cast_overflow :
    (initDrawTarget (World.sample 4294967295 1 1)).isSome = false := by
  have h : scaled (World.sample 4294967295 1 1).options.width
      (World.sample 4294967295 1 1).options.pixelSize = none := by decide
  unfold initDrawTarget
  rw [h]
  rfl

/-! ## The lifecycle of the callbacks -/

theorem replicate_onLoop_if (b : Bool) :
    (if b then [Callback.onLoop] else []) =
      List.replicate (if b then 1 else 0) Callback.onLoop := by
  cases b <;> rfl

theorem Win32.WndProc_WM_CREATE_eq (env : Win32.Env) (w : World) :
    Win32.WndProc env w Win32.Msg.WM_CREATE =
      (initDrawTarget
        { w with
          pixelFormat := env.pixelFormat
          options := { w.options with width := env.clientWidth, height := env.clientHeight }
          gl := glEnable_TEXTURE_2D w.gl }).bind
        (fun w4 => some (invoke w4.options.onOpened Callback.onOpened w4)) :=
  rfl

/-- The message `WM_CREATE` on a client area that `initDrawTarget` can handle: the options take
the client size and `onOpened` is called. -/
theorem Win32.WndProc_WM_CREATE (env : Win32.Env) (w : World)
    (hW : env.clientWidth ≤ 2 ^ 24) (hH : env.clientHeight ≤ 2 ^ 24)
    (hp : 1 ≤ w.options.pixelSize) (hp32 : w.options.pixelSize < 2 ^ 32)
    (hcells : ceilDiv env.clientWidth w.options.pixelSize *
      ceilDiv env.clientHeight w.options.pixelSize < 2 ^ 31) :
    ∃ w', Win32.WndProc env w Win32.Msg.WM_CREATE = some w' ∧
      w'.options.onLoop = w.options.onLoop ∧ w'.options.onClosed = w.options.onClosed ∧
      w'.trace = w.trace ++ if w.options.onOpened then [Callback.onOpened] else [] := by
  obtain ⟨w4, h, _, _, _, ho, ht, _⟩ :=
    initDrawTarget_of_scaled
      { w with
        pixelFormat := env.pixelFormat
        options := { w.options with width := env.clientWidth, height := env.clientHeight }
        gl := glEnable_TEXTURE_2D w.gl } _ _
      (scaled_eq hW hp hp32) (scaled_eq hH hp hp32) hcells
  refine ⟨invoke w4.options.onOpened Callback.onOpened w4, ?_, ?_, ?_, ?_⟩
  · rw [Win32.WndProc_WM_CREATE_eq, h, Option.some_bind]
  · rw [invoke_options, ho]
  · rw [invoke_options, ho]
  · rw [invoke_trace, ho, ht]

/-- The message `WM_PAINT` keeps the options and records only `onLoop` calls. -/
theorem Win32.WndProc_WM_PAINT (env : Win32.Env) (w : World) :
    ∃ w' n, Win32.WndProc env w Win32.Msg.WM_PAINT = some w' ∧ w'.options = w.options ∧
      w'.trace = w.trace ++ List.replicate n Callback.onLoop := by
  refine ⟨_, (if w.options.onLoop then 1 else 0) + (if w.options.onLoop then 1 else 0),
    rfl, ?_, ?_⟩
  · rw [invoke_options, mainRender_options]
  · rw [invoke_trace, mainRender_trace, mainRender_options, List.append_assoc,
      List.replicate_add, replicate_onLoop_if]

/-- Messages other than `WM_CREATE` and `WM_DESTROY` keep the options and record only
`onLoop` calls. -/
theorem Win32.dispatch_mid (env : Win32.Env) :
    ∀ (mid : List Win32.Msg) (w : World),
      (∀ m ∈ mid, m ≠ Win32.Msg.WM_CREATE ∧ m ≠ Win32.Msg.WM_DESTROY) →
      ∀ tail, ∃ w' n, Win32.dispatch env (mid ++ tail) w = Win32.dispatch env tail w' ∧
        w'.options = w.options ∧ w'.trace = w.trace ++ List.replicate n Callback.onLoop := by
  intro mid
  induction mid with
  | nil =>
    intro w _ tail
    exact ⟨w, 0, rfl, rfl, by simp⟩
  | cons m ms ih =>
    intro w hmid tail
    have hm := hmid m (List.mem_cons_self m ms)
    have hms : ∀ x ∈ ms, x ≠ Win32.Msg.WM_CREATE ∧ x ≠ Win32.Msg.WM_DESTROY :=
      fun x hx => hmid x (List.mem_cons_of_mem m hx)
    cases m with
    | WM_CREATE => exact absurd rfl hm.1
    | WM_DESTROY => exact absurd rfl hm.2
    | WM_PAINT =>
      obtain ⟨w1, c, h1, ho1, ht1⟩ := Win32.WndProc_WM_PAINT env w
      obtain ⟨w', n, h2, ho2, ht2⟩ := ih w1 hms tail
      refine ⟨w', c + n, ?_, ?_, ?_⟩
      · rw [List.cons_append, Win32.dispatch, h1, Option.some_bind, h2]
      · rw [ho2, ho1]
      · rw [ht2, ht1, List.append_assoc, List.replicate_add]
    | other u =>
      obtain ⟨w', n, h2, ho2, ht2⟩ := ih w hms tail
      refine ⟨w', n, ?_, ho2, ht2⟩
      rw [List.cons_append, Win32.dispatch]
      exact h2

theorem X11.mainLoop_CreateNotify_eq (next : Option X11.EventType) (event : X11.EventType)
    (rest : List (Option X11.EventType)) (w : World)
    (h : next.getD event = X11.EventType.CreateNotify) :
    X11.mainLoop (next :: rest) event w =
      (initDrawTarget { w with gl := glEnable_TEXTURE_2D w.gl }).bind
        (fun w2 => X11.mainLoop rest X11.EventType.CreateNotify
          (invoke w2.options.onOpened Callback.onOpened w2)) := by
  rw [X11.mainLoop]
  simp only [h]
  rfl

theorem X11.mainLoop_ClientMessage_eq (next : Option X11.EventType) (event : X11.EventType)
    (rest : List (Option X11.EventType)) (w : World)
    (h : next.getD event = X11.EventType.ClientMessage) :
    X11.mainLoop (next :: rest) event w =
      some (invoke w.options.onClosed Callback.onClosed { w with contextDestroyed := true },
        false) := by
  rw [X11.mainLoop]
  simp only [h]

theorem X11.mainLoop_Expose_eq (next : Option X11.EventType) (event : X11.EventType)
    (rest : List (Option X11.EventType)) (w : World)
    (h : next.getD event = X11.EventType.Expose) :
    X11.mainLoop (next :: rest) event w =
      X11.mainLoop rest X11.EventType.Expose (mainRender { w with swaps := w.swaps + 1 }) := by
  rw [X11.mainLoop]
  simp only [h]

theorem X11.mainLoop_other_eq (next : Option X11.EventType) (event : X11.EventType)
    (rest : List (Option X11.EventType)) (w : World) (type : Nat)
    (h : next.getD event = X11.EventType.other type) :
    X11.mainLoop (next :: rest) event w = X11.mainLoop rest (X11.EventType.other type) w := by
  rw [X11.mainLoop]
  simp only [h]


/-- Messages that the window procedure hands to `DefWindowProc` change nothing. -/
theorem Win32.dispatch_others (env : Win32.Env) :
    ∀ (l : List Win32.Msg) (w : World), (∀ m ∈ l, ∃ u, m = Win32.Msg.other u) →
      ∀ tail, Win32.dispatch env (l ++ tail) w = Win32.dispatch env tail w := by
  intro l
  induction l with
  | nil => intro w _ tail; rfl
  | cons m ms ih =>
    intro w hl tail
    obtain ⟨u, hu⟩ := hl m (List.mem_cons_self m ms)
    rw [hu, List.cons_append, Win32.dispatch]
    exact ih w (fun x hx => hl x (List.mem_cons_of_mem m hx)) tail

/-- The Win32 path delivers the lifecycle.  When the messages are, in order, messages left to
`DefWindowProc` (such as `WM_NCCREATE`), `WM_CREATE`, messages other than `WM_CREATE` and
`WM_DESTROY`, `WM_DESTROY`, and again messages left to `DefWindowProc` (such as
`WM_NCDESTROY`), with `onOpened` and `onClosed` set and a client area that `initDrawTarget`
can handle, the recorded callbacks are `onOpened`, then any number of `onLoop`, then one
`onClosed`. -/
theorem Win32.dispatch_lifecycle (env : Win32.Env) (w : World)
    (pre mid post : List Win32.Msg)
    (hOpened : w.options.onOpened = true) (hClosed : w.options.onClosed = true)
    (hp : 1 ≤ w.options.pixelSize) (hp32 : w.options.pixelSize < 2 ^ 32)
    (hcW : env.clientWidth ≤ 2 ^ 24) (hcH : env.clientHeight ≤ 2 ^ 24)
    (hcells : ceilDiv env.clientWidth w.options.pixelSize *
      ceilDiv env.clientHeight w.options.pixelSize < 2 ^ 31)
    (hpre : ∀ m ∈ pre, ∃ u, m = Win32.Msg.other u)
    (hmid : ∀ m ∈ mid, m ≠ Win32.Msg.WM_CREATE ∧ m ≠ Win32.Msg.WM_DESTROY)
    (hpost : ∀ m ∈ post, ∃ u, m = Win32.Msg.other u) :
    ∃ w' tr, Win32.dispatch env
        (pre ++ Win32.Msg.WM_CREATE :: (mid ++ Win32.Msg.WM_DESTROY :: post)) w = some w' ∧
      w'.trace = w.trace ++ tr ∧ Lifecycle tr := by
  obtain ⟨w1, h1, _, hc1, ht1⟩ := Win32.WndProc_WM_CREATE env w hcW hcH hp hp32 hcells
  obtain ⟨w2, n, h2, ho2, ht2⟩ :=
    Win32.dispatch_mid env mid w1 hmid (Win32.Msg.WM_DESTROY :: post)
  have h3 := Win32.dispatch_others env post
    (invoke w2.options.onClosed Callback.onClosed
      { w2 with contextDestroyed := true, quit := some 0 }) hpost []
  rw [List.append_nil] at h3
  refine ⟨invoke w2.options.onClosed Callback.onClosed
      { w2 with contextDestroyed := true, quit := some 0 },
    Callback.onOpened :: (List.replicate n Callback.onLoop ++ [Callback.onClosed]),
    ?_, ?_, ⟨n, rfl⟩⟩
  · rw [Win32.dispatch_others env pre w hpre, Win32.dispatch, h1, Option.some_bind, h2,
      Win32.dispatch]
    exact h3
  · rw [invoke_trace]
    show w2.trace ++ _ = _
    rw [ht2, ht1, ho2, hc1, hClosed, hOpened]
    simp

theorem Win32.dispatch_lifecycle_witness :
    ∃ w' tr, Win32.dispatch
        { pixelFormat := 1, clientWidth := 4, clientHeight := 3, createMsgs := [],
          hWnd := true, loopMsgs := [], quitParam := 0 }
        ([Win32.Msg.other 129] ++ Win32.Msg.WM_CREATE ::
          ([Win32.Msg.WM_PAINT, Win32.Msg.other 5] ++
            Win32.Msg.WM_DESTROY :: [Win32.Msg.other 130]))
        (World.sample 4 3 2) = some w' ∧
      w'.trace = (World.sample 4 3 2).trace ++ tr ∧ Lifecycle tr :=
  Win32.dispatch_lifecycle
    { pixelFormat := 1, clientWidth := 4, clientHeight := 3, createMsgs := [],
      hWnd := true, loopMsgs := [], quitParam := 0 }
    (World.sample 4 3 2) [Win32.Msg.other 129] [Win32.Msg.WM_PAINT, Win32.Msg.other 5]
    [Win32.Msg.other 130]
    (by decide) (by decide) (by decide) (by decide) (by decide) (by decide) (by decide)
    (fun _ hm => ⟨129, List.mem_singleton.1 hm⟩) (by decide)
    (fun _ hm => ⟨130, List.mem_singleton.1 hm⟩)

/-- On X11, as long as no `CreateNotify` is delivered, `mainLoop` returns normally on every
sequence of iterations and never calls `onOpened`. -/
theorem X11.mainLoop_never_onOpened :
    ∀ (pending : List (Option X11.EventType)) (event : X11.EventType) (w : World),
      (∀ x ∈ pending, x ≠ some X11.EventType.CreateNotify) →
      event ≠ X11.EventType.CreateNotify →
      ∃ r tr, X11.mainLoop pending event w = some r ∧ r.1.trace = w.trace ++ tr ∧
        Callback.onOpened ∉ tr := by
  intro pending
  induction pending with
  | nil =>
    intro event w _ _
    exact ⟨(w, true), [], rfl, by simp, by simp⟩
  | cons x xs ih =>
    intro event w hpend hev
    have hxs : ∀ y ∈ xs, y ≠ some X11.EventType.CreateNotify :=
      fun y hy => hpend y (List.mem_cons_of_mem x hy)
    have he : x.getD event ≠ X11.EventType.CreateNotify := by
      cases x with
      | none => exact hev
      | some v => exact fun hv => hpend (some v) (List.mem_cons_self _ xs) (congrArg some hv)
    cases hcur : x.getD event with
    | CreateNotify => exact absurd hcur he
    | ClientMessage =>
      refine ⟨_, if w.options.onClosed then [Callback.onClosed] else [],
        X11.mainLoop_ClientMessage_eq x event xs w hcur, ?_, ?_⟩
      · show (invoke _ _ _).trace = _
        rw [invoke_trace]
      · cases w.options.onClosed <;> simp
    | Expose =>
      obtain ⟨r, tr, h1, h2, h3⟩ :=
        ih X11.EventType.Expose (mainRender { w with swaps := w.swaps + 1 }) hxs (by simp)
      refine ⟨r, (if w.options.onLoop then [Callback.onLoop] else []) ++ tr, ?_, ?_, ?_⟩
      · rw [X11.mainLoop_Expose_eq x event xs w hcur, h1]
      · rw [h2, mainRender_trace, List.append_assoc]
      · cases w.options.onLoop <;> simpa using h3
    | other type =>
      obtain ⟨r, tr, h1, h2, h3⟩ := ih (X11.EventType.other type) w hxs (by simp)
      exact ⟨r, tr, by rw [X11.mainLoop_other_eq x event xs w type hcur, h1], h2, h3⟩

/-- C5 (what the code does): on X11 the window selects only exposure and key events, so no
`CreateNotify` is delivered.  With every callback set and the server delivering `Expose`,
then nothing for one iteration, then the `ClientMessage` of the close button, `createWindow`
records `onLoop`, `onLoop`, `onClosed` and returns `0`: `onOpened` is never called, the
canvas is never built, and the record is not of the shape `onOpened`, `onLoop`...,
`onClosed`. -/
theorem x11_run_without_onOpened :
    (X11.createWindow
        { display := true, visual := true, event := X11.EventType.other 0,
          pending := [some X11.EventType.Expose, none, some X11.EventType.ClientMessage] }
        (World.sample 4 3 2).options (World.init fun _ => 0)).map
        (fun r => (r.1.trace, r.2, r.1.drawTarget.width, r.1.drawTarget.height)) =
      some ([Callback.onLoop, Callback.onLoop, Callback.onClosed], some 0, 0, 0) ∧
    ¬ Lifecycle [Callback.onLoop, Callback.onLoop, Callback.onClosed] := by
  refine ⟨by decide, ?_⟩
  rintro ⟨n, h⟩
  exact absurd (List.cons.inj h).1 (by decide)

/-- On Win32 the window procedure records whatever the messages dictate: a lone `WM_DESTROY`
records `onClosed` although `onOpened` was never called. -/
theorem Win32.dispatch_destroy_only :
    (Win32.dispatch
        { pixelFormat := 1, clientWidth := 4, clientHeight := 3, createMsgs := [],
          hWnd := true, loopMsgs := [], quitParam := 0 }
        [Win32.Msg.WM_DESTROY] (World.sample 4 3 2)).map (fun w' => w'.trace) =
      some [Callback.onClosed] := by
  decide

/-- On X11 an iteration without a pending event handles the previous event again: after
`CreateNotify`, `onOpened` is called once more. -/
theorem X11.mainLoop_CreateNotify_again :
    (X11.mainLoop [some X11.EventType.CreateNotify, none, some X11.EventType.ClientMessage]
        (X11.EventType.other 0) (World.sample 4 3 2)).map (fun r => r.1.trace) =
      some [Callback.onOpened, Callback.onOpened, Callback.onClosed] := by
  decide

end Szark
